import Mathlib

/-!
# Verification of `uniswap_v3_tx_decoder.py`

Shallow embedding of the Uniswap-V3 swap-transaction decoder and proofs of the
spec's testable properties.  Python machine behaviour is modelled explicitly:

* Python `str.lower()` is modelled for the ASCII range (all inputs of interest
  are hexadecimal address/topic strings);
* Python big integers are `Int`/`Nat`;
* `decimal.Decimal` arithmetic at the module's working precision of 78
  significant digits is modelled exactly (power of ten, division with
  round-half-even, and the default `__str__` rendering);
* network I/O is modelled by explicit oracles, and exceptions by `Except`.
-/

/-- The list of lower-case ASCII letters, used to reason about lowering. -/
def asciiLowercase : List Char :=
  ['a','b','c','d','e','f','g','h','i','j','k','l','m',
   'n','o','p','q','r','s','t','u','v','w','x','y','z']

/-- Python `str.lower()` on a single character, restricted to the ASCII
letters (the only characters Python's `lower` changes among the hexadecimal
address, topic and signature strings this program manipulates). -/
def pyLowerChar (c : Char) : Char :=
  match c with
  | 'A' => 'a' | 'B' => 'b' | 'C' => 'c' | 'D' => 'd' | 'E' => 'e'
  | 'F' => 'f' | 'G' => 'g' | 'H' => 'h' | 'I' => 'i' | 'J' => 'j'
  | 'K' => 'k' | 'L' => 'l' | 'M' => 'm' | 'N' => 'n' | 'O' => 'o'
  | 'P' => 'p' | 'Q' => 'q' | 'R' => 'r' | 'S' => 's' | 'T' => 't'
  | 'U' => 'u' | 'V' => 'v' | 'W' => 'w' | 'X' => 'x' | 'Y' => 'y'
  | 'Z' => 'z'
  | c => c

/-- Python `str.lower()` on a whole string (ASCII model). -/
def pyLower (s : String) : String :=
  ⟨s.data.map pyLowerChar⟩

/-- `str.startswith("0x")`, stated on the character list so that proofs can
pattern-match directly. -/
def startsWith0x (s : String) : Bool :=
  match s.data with
  | '0' :: 'x' :: _ => true
  | _ => false

/-- `normalize_address` (source lines 59–63): the empty string is returned
unchanged; otherwise the string is lower-cased and given a `"0x"` prefix
unless it already starts with one. -/
def normalize_address (addr : String) : String :=
  if addr = "" then addr
  else
    let low := pyLower addr
    if startsWith0x low then low else "0x" ++ low

theorem pyLowerChar_cases (c : Char) :
    pyLowerChar c = c ∨ pyLowerChar c ∈ asciiLowercase := by
  unfold pyLowerChar
  split
  all_goals first | (left; rfl) | (right; decide)

theorem pyLowerChar_of_lower (d : Char) (h : d ∈ asciiLowercase) :
    pyLowerChar d = d := by
  fin_cases h <;> rfl

theorem pyLowerChar_idem (c : Char) : pyLowerChar (pyLowerChar c) = pyLowerChar c := by
  rcases pyLowerChar_cases c with h | h
  · rw [h]; exact h
  · exact pyLowerChar_of_lower _ h

theorem pyLower_data (s : String) : (pyLower s).data = s.data.map pyLowerChar := rfl

theorem pyLower_idem (s : String) : pyLower (pyLower s) = pyLower s := by
  unfold pyLower
  simp [List.map_map, Function.comp_def, pyLowerChar_idem]

theorem pyLower_empty_iff (s : String) : pyLower s = "" ↔ s = "" := by
  constructor
  · intro h
    have hd : (pyLower s).data = ([] : List Char) := by rw [h]
    rw [pyLower_data] at hd
    apply String.ext
    show s.data = []
    simpa using hd
  · intro h; rw [h]; rfl

theorem data_0x_append (s : String) : ("0x" ++ s).data = '0' :: 'x' :: s.data := by
  rw [String.data_append]
  rfl

theorem startsWith0x_append_0x (s : String) : startsWith0x ("0x" ++ s) = true := by
  unfold startsWith0x
  rw [data_0x_append]
  rfl

theorem pyLower_append_0x (s : String) :
    pyLower ("0x" ++ s) = "0x" ++ pyLower s := by
  apply String.ext
  rw [pyLower_data, data_0x_append, data_0x_append, pyLower_data]
  simp only [List.map_cons]
  rfl

/-- `normalize_address` of a nonempty input always yields a string that
starts with `"0x"`. -/
theorem normalize_address_startsWith0x (a : String) (h : a ≠ "") :
    startsWith0x (normalize_address a) = true := by
  unfold normalize_address
  rw [if_neg h]
  by_cases h0 : startsWith0x (pyLower a) = true
  · simp [h0]
  · simp only [Bool.not_eq_true] at h0
    simp [h0, startsWith0x_append_0x]

theorem normalize_address_ne_empty (a : String) (h : a ≠ "") :
    normalize_address a ≠ "" := by
  intro hc
  have hs := normalize_address_startsWith0x a h
  rw [hc] at hs
  simp [startsWith0x] at hs

theorem normalize_address_lower_fixed (a : String) :
    pyLower (normalize_address a) = normalize_address a := by
  unfold normalize_address
  by_cases he : a = ""
  · rw [if_pos he, he]; rfl
  · rw [if_neg he]
    by_cases h0 : startsWith0x (pyLower a) = true
    · simp [h0, pyLower_idem]
    · simp only [Bool.not_eq_true] at h0
      simp [h0, pyLower_append_0x, pyLower_idem]

/-- **C8.** Address normalization is idempotent, and any two strings that
agree after lower-casing (in particular, addresses differing only in letter
case) normalize to the same string. -/
theorem normalize_address_idempotent_case_insensitive :
    (∀ a, normalize_address (normalize_address a) = normalize_address a) ∧
      (∀ a b, pyLower a = pyLower b → normalize_address a = normalize_address b) := by
  constructor
  · intro a
    by_cases he : a = ""
    · simp [he, normalize_address]
    · conv_lhs => rw [normalize_address]
      rw [if_neg (normalize_address_ne_empty a he), normalize_address_lower_fixed]
      have hs := normalize_address_startsWith0x a he
      simp [hs]
  · intro a b hab
    unfold normalize_address
    by_cases he : a = ""
    · have hb : b = "" := by
        rw [← pyLower_empty_iff, ← hab, he]
        rfl
      simp [he, hb]
    · have hbe : b ≠ "" := by
        intro hb
        rw [hb] at hab
        exact he ((pyLower_empty_iff a).mp (by rw [hab]; rfl))
      rw [if_neg he, if_neg hbe, hab]

/-- C8 witness: the theorem applied to the concrete pair `"0xAbC"`, `"0XaBc"`. -/
theorem normalize_address_case_insensitive_witness :
    normalize_address "0xAbC" = normalize_address "0XaBc" :=
  normalize_address_idempotent_case_insensitive.2 "0xAbC" "0XaBc" (by decide)

/-- **C9.** `normalize_address` leaves the empty string unchanged (it is not
given the `"0x"` prefix), while every nonempty input is mapped to a
lower-case `"0x"`-prefixed string: the canonical form is guaranteed only for
nonempty inputs. -/
theorem normalize_address_empty_unchanged :
    normalize_address "" = "" ∧
      (∀ a, a ≠ "" →
        startsWith0x (normalize_address a) = true ∧
          pyLower (normalize_address a) = normalize_address a) :=
  ⟨rfl, fun a h => ⟨normalize_address_startsWith0x a h, normalize_address_lower_fixed a⟩⟩

/-- C9 witness: the theorem applied to the concrete nonempty input `"DEAD"`. -/
theorem normalize_address_empty_unchanged_witness :
    startsWith0x (normalize_address "DEAD") = true :=
  (normalize_address_empty_unchanged.2 "DEAD" (by decide)).1

/-! ## Token metadata resolver and swap direction resolution -/

/-- The Swap event topic-0 signature hash constant (source lines 15–17). -/
def SWAP_EVENT_SIG : String :=
  "c42079f94a6350d7e6235f29174924f928cc2ac818eb64fed8004e115fbcca67"

/-- `token0()` function selector (source line 19). -/
def TOKEN0_SELECTOR : String := "0x0dfe1681"

/-- `token1()` function selector (source line 20). -/
def TOKEN1_SELECTOR : String := "0xd21220a7"

/-- `decimals()` function selector (source line 21). -/
def DECIMALS_SELECTOR : String := "0x313ce567"

/-- Python `s[-n:]`: the last `n` characters of a string (the whole string
when it is shorter than `n`). -/
def lastChars (n : Nat) (s : String) : String :=
  ⟨s.data.drop (s.data.length - n)⟩

/-- `decode_address` (source lines 66–67): normalize `"0x"` plus the last 40
characters of a 32-byte topic word. -/
def decode_address (topic : String) : String :=
  normalize_address ("0x" ++ lastChars 40 topic)

/-- A parsed `SwapEvent` record (source lines 103–109). -/
structure SwapEvent where
  pool : String
  sender : String
  recipient : String
  amount0 : Int
  amount1 : Int
  deriving DecidableEq

/-- A JSON-RPC request issued through `JsonRpcClient.call`, used to trace
which network calls a decode performs. -/
inductive RpcReq where
  | getTransactionReceipt (txHash : String)
  | getTransactionByHash (txHash : String)
  | ethCall (toAddr : String) (data : String)
  deriving DecidableEq

/-- One log entry of a receipt.  `topics` models `log.get("topics", [])`
(an absent key is the empty list); `data` is `none` when the log has no
`"data"` key, in which case `log["data"]` raises `KeyError`. -/
structure LogEntry where
  address : String
  topics : List String
  data : Option String
  deriving DecidableEq

/-- A transaction receipt as consumed by the decoder: its `"status"` and
`"from"` fields (absent keys are `none`) and its logs. -/
structure Receipt where
  status : Option String
  fromAddr : Option String
  logs : List LogEntry
  deriving DecidableEq

/-- The transaction object; only its `"from"` field is consumed. -/
structure Tx where
  fromAddr : Option String
  deriving DecidableEq

/-- The chain/network oracle: what each JSON-RPC method returns for this
decode, at the abstraction level of `JsonRpcClient.call` (an `Except.error`
models `call` raising after exhausting every endpoint).  `Option` in a
result models a JSON `null` (and, for the transaction, anything falsy). -/
structure World where
  getTransactionReceipt : String → Except String (Option Receipt)
  getTransactionByHash : String → Except String (Option Tx)
  ethCallResult : String → String → Except String String

/-- The per-client memo caches `_pool_tokens_cache` / `_decimals_cache`
(source lines 34–35), as association lists with newest entries first. -/
structure Caches where
  poolTokens : List (String × (String × String))
  decimalsCache : List (String × Nat)
  deriving DecidableEq

/-- `get_token0_token1` (source lines 74–83): cache lookup on the normalized
pool address, otherwise two `eth_call`s whose 32-byte results are truncated
to the low 20 bytes and normalized.  Besides the Python result, the model
returns the updated caches and the list of RPC requests issued. -/
def get_token0_token1 (w : World) (c : Caches) (pool : String) :
    Except String (String × String) × Caches × List RpcReq :=
  let cacheKey := normalize_address pool
  match c.poolTokens.lookup cacheKey with
  | some p => (.ok p, c, [])
  | none =>
    match w.ethCallResult cacheKey TOKEN0_SELECTOR with
    | .error e => (.error e, c, [.ethCall cacheKey TOKEN0_SELECTOR])
    | .ok token0Hex =>
      match w.ethCallResult cacheKey TOKEN1_SELECTOR with
      | .error e =>
          (.error e, c, [.ethCall cacheKey TOKEN0_SELECTOR, .ethCall cacheKey TOKEN1_SELECTOR])
      | .ok token1Hex =>
        let token0 := normalize_address ("0x" ++ lastChars 40 token0Hex)
        let token1 := normalize_address ("0x" ++ lastChars 40 token1Hex)
        (.ok (token0, token1),
         { c with poolTokens := (cacheKey, (token0, token1)) :: c.poolTokens },
         [.ethCall cacheKey TOKEN0_SELECTOR, .ethCall cacheKey TOKEN1_SELECTOR])

/-- The value of one hexadecimal digit character, if it is one. -/
def hexDigitVal? (c : Char) : Option Nat :=
  if '0' ≤ c ∧ c ≤ '9' then some (c.toNat - 48)
  else if 'a' ≤ c ∧ c ≤ 'f' then some (c.toNat - 87)
  else if 'A' ≤ c ∧ c ≤ 'F' then some (c.toNat - 55)
  else none

/-- Fold a hex digit string into a number; `none` on a non-digit. -/
def hexNatCore? : List Char → Nat → Option Nat
  | [], acc => some acc
  | c :: rest, acc =>
    match hexDigitVal? c with
    | some v => hexNatCore? rest (acc * 16 + v)
    | none => none

/-- Python `int(s, 16)` on the strings this program feeds it: an optional
`"0x"`/`"0X"` prefix followed by at least one hex digit.  (Python also
tolerates surrounding whitespace, a sign and `_` separators; RPC hex
payloads never contain those, so they are elided here.) -/
def parseHexInt? (s : String) : Option Nat :=
  let cs :=
    match s.data with
    | '0' :: 'x' :: rest => rest
    | '0' :: 'X' :: rest => rest
    | cs => cs
  match cs with
  | [] => none
  | _ => hexNatCore? cs 0

/-- `get_decimals` (source lines 86–93): cache lookup on the normalized
token address, otherwise one `eth_call` whose result is parsed with
`int(·, 16)`. -/
def get_decimals (w : World) (c : Caches) (token : String) :
    Except String Nat × Caches × List RpcReq :=
  let cacheKey := normalize_address token
  match c.decimalsCache.lookup cacheKey with
  | some d => (.ok d, c, [])
  | none =>
    match w.ethCallResult cacheKey DECIMALS_SELECTOR with
    | .error e => (.error e, c, [.ethCall cacheKey DECIMALS_SELECTOR])
    | .ok decimalsHex =>
      match parseHexInt? decimalsHex with
      | none =>
          (.error ("invalid literal for int() with base 16: " ++ decimalsHex), c,
           [.ethCall cacheKey DECIMALS_SELECTOR])
      | some d =>
          (.ok d, { c with decimalsCache := (cacheKey, d) :: c.decimalsCache },
           [.ethCall cacheKey DECIMALS_SELECTOR])

/-- The message of the `RpcError` raised for an unresolvable sign
combination (source lines 147–149). -/
def swapAmountsError (pool : String) (amount0 amount1 : Int) : String :=
  "unexpected swap amounts in pool " ++ pool ++ ": amount0=" ++ toString amount0 ++
    ", amount1=" ++ toString amount1

/-- `resolve_swap_tokens` (source lines 139–149): fetch the pool's token
pair, then assign in/out by the signs of the two amounts; any other sign
combination raises. -/
def resolve_swap_tokens (w : World) (c : Caches) (swap : SwapEvent) :
    Except String (String × String × Int × Int) × Caches × List RpcReq :=
  match get_token0_token1 w c swap.pool with
  | (.error e, c', reqs) => (.error e, c', reqs)
  | (.ok (token0, token1), c', reqs) =>
    if swap.amount0 > 0 ∧ swap.amount1 < 0 then
      (.ok (token0, token1, swap.amount0, -swap.amount1), c', reqs)
    else if swap.amount1 > 0 ∧ swap.amount0 < 0 then
      (.ok (token1, token0, swap.amount1, -swap.amount0), c', reqs)
    else
      (.error (swapAmountsError swap.pool swap.amount0 swap.amount1), c', reqs)

/-- **C1.** When the pool resolves to `(token0, token1)`: a swap with
`amount0 > 0 > amount1` resolves to exactly `(token0, token1, amount0,
-amount1)`, and a swap with `amount1 > 0 > amount0` resolves to exactly
`(token1, token0, amount1, -amount0)`. -/
theorem resolve_swap_tokens_directional (w : World) (c c' : Caches)
    (swap : SwapEvent) (token0 token1 : String) (reqs : List RpcReq)
    (hfetch : get_token0_token1 w c swap.pool = (.ok (token0, token1), c', reqs)) :
    (swap.amount0 > 0 → swap.amount1 < 0 →
      resolve_swap_tokens w c swap =
        (.ok (token0, token1, swap.amount0, -swap.amount1), c', reqs)) ∧
    (swap.amount1 > 0 → swap.amount0 < 0 →
      resolve_swap_tokens w c swap =
        (.ok (token1, token0, swap.amount1, -swap.amount0), c', reqs)) := by
  unfold resolve_swap_tokens
  rw [hfetch]
  constructor
  · intro h0 h1
    have hc : swap.amount0 > 0 ∧ swap.amount1 < 0 := ⟨h0, h1⟩
    simp [hc]
  · intro h1 h0
    have hn : ¬(swap.amount0 > 0 ∧ swap.amount1 < 0) := by omega
    have hc : swap.amount1 > 0 ∧ swap.amount0 < 0 := ⟨h1, h0⟩
    simp [hn, hc]

/-- A world whose every oracle fails; cache-hit paths never consult it. -/
def unreachableWorld : World :=
  { getTransactionReceipt := fun _ => .error "unreachable"
    getTransactionByHash := fun _ => .error "unreachable"
    ethCallResult := fun _ _ => .error "unreachable" }

/-- Caches already holding the token pair of pool `"0xpool"`. -/
def poolHitCaches : Caches :=
  { poolTokens := [("0xpool", ("0xaaa", "0xbbb"))], decimalsCache := [] }

/-- C1 witness: a concrete cache-hit world with `amount0 = 5`,
`amount1 = -7`. -/
theorem resolve_swap_tokens_directional_witness :
    resolve_swap_tokens unreachableWorld poolHitCaches
      { pool := "0xpool", sender := "0xs", recipient := "0xr", amount0 := 5, amount1 := -7 } =
      (.ok ("0xaaa", "0xbbb", 5, 7), poolHitCaches, []) :=
  (resolve_swap_tokens_directional unreachableWorld poolHitCaches poolHitCaches
      { pool := "0xpool", sender := "0xs", recipient := "0xr", amount0 := 5, amount1 := -7 }
      "0xaaa" "0xbbb" [] rfl).1
    (by decide) (by decide)

theorem swapAmountsError_data (pool : String) (a0 a1 : Int) :
    (swapAmountsError pool a0 a1).data =
      "unexpected swap amounts in pool ".data ++ pool.data ++
        (": amount0=".data ++ ((toString a0).data ++
          (", amount1=".data ++ (toString a1).data))) := by
  simp [swapAmountsError, String.data_append, List.append_assoc]

/-- **C2.** When the pool's token pair resolves but the amounts do not form
one strictly positive and one strictly negative value, `resolve_swap_tokens`
raises (never returns a result), and the error message contains the pool
address and the decimal renderings of both raw amounts. -/
theorem resolve_swap_tokens_rejects_malformed (w : World) (c c' : Caches)
    (swap : SwapEvent) (token0 token1 : String) (reqs : List RpcReq)
    (hfetch : get_token0_token1 w c swap.pool = (.ok (token0, token1), c', reqs))
    (hsigns : ¬((swap.amount0 > 0 ∧ swap.amount1 < 0) ∨
                (swap.amount1 > 0 ∧ swap.amount0 < 0))) :
    resolve_swap_tokens w c swap =
      (.error (swapAmountsError swap.pool swap.amount0 swap.amount1), c', reqs) ∧
    List.IsInfix swap.pool.data (swapAmountsError swap.pool swap.amount0 swap.amount1).data ∧
    List.IsInfix (toString swap.amount0).data
      (swapAmountsError swap.pool swap.amount0 swap.amount1).data ∧
    List.IsInfix (toString swap.amount1).data
      (swapAmountsError swap.pool swap.amount0 swap.amount1).data := by
  refine ⟨?_, ?_, ?_, ?_⟩
  · unfold resolve_swap_tokens
    rw [hfetch]
    have h1 : ¬(swap.amount0 > 0 ∧ swap.amount1 < 0) := fun h => hsigns (Or.inl h)
    have h2 : ¬(swap.amount1 > 0 ∧ swap.amount0 < 0) := fun h => hsigns (Or.inr h)
    simp [h1, h2]
  · exact ⟨"unexpected swap amounts in pool ".data,
      ": amount0=".data ++ ((toString swap.amount0).data ++
        (", amount1=".data ++ (toString swap.amount1).data)),
      by simp [swapAmountsError_data, swapAmountsError, String.data_append, List.append_assoc]⟩
  · exact ⟨"unexpected swap amounts in pool ".data ++ swap.pool.data ++ ": amount0=".data,
      ", amount1=".data ++ (toString swap.amount1).data,
      by simp [swapAmountsError_data, swapAmountsError, String.data_append, List.append_assoc]⟩
  · exact ⟨"unexpected swap amounts in pool ".data ++ swap.pool.data ++ ": amount0=".data ++
        (toString swap.amount0).data ++ ", amount1=".data,
      [],
      by simp [swapAmountsError_data, swapAmountsError, String.data_append, List.append_assoc]⟩

/-- C2 witness: the zero/zero swap on a cache-hit pool. -/
theorem resolve_swap_tokens_rejects_malformed_witness :
    resolve_swap_tokens unreachableWorld poolHitCaches
      { pool := "0xpool", sender := "0xs", recipient := "0xr", amount0 := 0, amount1 := 0 } =
      (.error (swapAmountsError "0xpool" 0 0), poolHitCaches, []) :=
  (resolve_swap_tokens_rejects_malformed unreachableWorld poolHitCaches poolHitCaches
      { pool := "0xpool", sender := "0xs", recipient := "0xr", amount0 := 0, amount1 := 0 }
      "0xaaa" "0xbbb" [] rfl (by decide)).1

/-! ## Log parser -/

/-- Python `str.replace("0x", "")`: delete every non-overlapping occurrence
of `"0x"`, scanning left to right.  Note this is *not* a prefix strip. -/
def remove0x : List Char → List Char
  | '0' :: 'x' :: rest => remove0x rest
  | c :: rest => c :: remove0x rest
  | [] => []

/-- The topic-0 test actually performed by the source (line 116):
`topics[0].lower().replace("0x", "") == SWAP_EVENT_SIG`. -/
def codeTopicMatches (t : String) : Bool :=
  remove0x (pyLower t).data == SWAP_EVENT_SIG.data

/-- A log entry the parser converts (source lines 116–119): nonempty topics
whose head passes the topic-0 test, and at least three topics. -/
def qualifiesSwapLog (l : LogEntry) : Bool :=
  match l.topics with
  | [] => false
  | t0 :: _ => codeTopicMatches t0 && decide (l.topics.length ≥ 3)

/-- `bytes.fromhex` on the substring `data[2:]`: pairs of hex digits, `none`
on an odd-length or non-hex input.  (Python additionally skips ASCII spaces
between bytes; RPC hex payloads never contain spaces, so this is elided.) -/
def hexPairBytes? : List Char → Option (List Nat)
  | [] => some []
  | [_] => none
  | c1 :: c2 :: rest =>
    match hexDigitVal? c1, hexDigitVal? c2, hexPairBytes? rest with
    | some hi, some lo, some bs => some ((hi * 16 + lo) :: bs)
    | _, _, _ => none

/-- Big-endian byte-list to natural number. -/
def bytesToNat (bs : List Nat) : Nat :=
  bs.foldl (fun acc b => acc * 256 + b) 0

/-- A 32-byte word as a signed (two's-complement) 256-bit integer. -/
def int256FromWord (w : List Nat) : Int :=
  let n := bytesToNat w
  if n < 2 ^ 255 then (n : Int) else (n : Int) - 2 ^ 256

/-- All bytes zero. -/
def allZeroBytes (bs : List Nat) : Bool := bs.all (· == 0)

/-- eth_abi's padding validation for the `int24` tail field: the 29 padding
bytes must be the sign extension of the 3-byte value. -/
def validInt24Word (w : List Nat) : Bool :=
  match w.drop 29 with
  | b :: _ => if b < 128 then allZeroBytes (w.take 29) else (w.take 29).all (· == 255)
  | [] => false

/-- `abi_decode(["int256", "int256", "uint160", "uint128", "int24"], data)`
restricted to what the source keeps (lines 122–125): the first two head
words as signed 256-bit integers.  Failure cases: a missing `"data"` key
(`KeyError`), a non-hex or odd-length hex string (`ValueError` from
`bytes.fromhex`; Python slices off the first two characters unconditionally),
fewer than the 5×32 bytes the layout needs (`InsufficientDataBytes`), and
nonzero padding in the three discarded fields (`NonEmptyPaddingBytes`,
eth_abi validates them even though the caller drops them).  Bytes beyond the
160-byte head are ignored. -/
def decodeSwapData (l : LogEntry) : Except String (Int × Int) :=
  match l.data with
  | none => .error "KeyError: data"
  | some ds =>
    match hexPairBytes? (ds.data.drop 2) with
    | none => .error "ValueError: non-hexadecimal number found in fromhex() arg"
    | some bs =>
      if bs.length < 160 then .error "InsufficientDataBytes"
      else
        let w2 := (bs.drop 64).take 32
        let w3 := (bs.drop 96).take 32
        let w4 := (bs.drop 128).take 32
        if allZeroBytes (w2.take 12) && allZeroBytes (w3.take 16) && validInt24Word w4 then
          .ok (int256FromWord (bs.take 32), int256FromWord ((bs.drop 32).take 32))
        else .error "NonEmptyPaddingBytes"

/-- The `SwapEvent` built from a qualifying log (source lines 120–135). -/
def logSwapEvent (l : LogEntry) (a0 a1 : Int) : SwapEvent :=
  { pool := normalize_address l.address
    sender := decode_address (l.topics.getD 1 "")
    recipient := decode_address (l.topics.getD 2 "")
    amount0 := a0
    amount1 := a1 }

/-- `parse_swap_logs` over the receipt's log list (source lines 112–136):
non-qualifying logs are skipped silently; a qualifying log is decoded, and a
decode failure propagates as an exception. -/
def parseSwapLogsList : List LogEntry → Except String (List SwapEvent)
  | [] => .ok []
  | l :: rest =>
    if qualifiesSwapLog l then
      match decodeSwapData l with
      | .error e => .error e
      | .ok (a0, a1) =>
        match parseSwapLogsList rest with
        | .error e => .error e
        | .ok evs => .ok (logSwapEvent l a0 a1 :: evs)
    else parseSwapLogsList rest

/-- `parse_swap_logs(receipt)` (source line 112). -/
def parse_swap_logs (receipt : Receipt) : Except String (List SwapEvent) :=
  parseSwapLogsList receipt.logs

/-- The conversion applied to each qualifying log (total by defaulting the
never-taken error branch, which the parser theorems exclude by hypothesis). -/
def convertSwapLog (l : LogEntry) : SwapEvent :=
  match decodeSwapData l with
  | .ok (a0, a1) => logSwapEvent l a0 a1
  | .error _ => logSwapEvent l 0 0

theorem parseSwapLogsList_eq_filter_map (logs : List LogEntry)
    (hok : ∀ l ∈ logs, qualifiesSwapLog l = true → (decodeSwapData l).isOk = true) :
    parseSwapLogsList logs = .ok ((logs.filter qualifiesSwapLog).map convertSwapLog) := by
  induction logs with
  | nil => rfl
  | cons l rest ih =>
    have hrest : ∀ l' ∈ rest, qualifiesSwapLog l' = true → (decodeSwapData l').isOk = true :=
      fun l' hm => hok l' (List.mem_cons_of_mem _ hm)
    unfold parseSwapLogsList
    by_cases hq : qualifiesSwapLog l = true
    · rw [if_pos hq]
      have hdec := hok l (List.mem_cons_self _ _) hq
      rcases hd : decodeSwapData l with e | ⟨a0, a1⟩
      · rw [hd] at hdec
        exact Bool.noConfusion hdec
      · rw [ih hrest]
        simp [List.filter_cons, hq, convertSwapLog, hd]
    · simp only [Bool.not_eq_true] at hq
      rw [hq]
      simp only [Bool.false_eq_true, if_false]
      rw [ih hrest]
      simp [List.filter_cons, hq]

/-- **C3 (amended).** `parse_swap_logs` returns exactly the receipt's logs
that pass the code's topic test — topic 0 lower-cased with *every*
occurrence of `"0x"` removed equals the Swap signature — and have at least
three topics, converted in the receipt's original order; zero qualifying
logs yield `ok []`, not an error.  (Hypothesis: every qualifying log's data
decodes, the failing case being claim C10's subject.) -/
theorem parse_swap_logs_filters_and_preserves_order (receipt : Receipt)
    (hok : ∀ l ∈ receipt.logs, qualifiesSwapLog l = true → (decodeSwapData l).isOk = true) :
    parse_swap_logs receipt =
      .ok ((receipt.logs.filter qualifiesSwapLog).map convertSwapLog) :=
  parseSwapLogsList_eq_filter_map receipt.logs hok

/-- A 32-byte topic word used in concrete receipts. -/
def topicWordA : String := ⟨List.replicate 64 'a'⟩

/-- Another 32-byte topic word. -/
def topicWordB : String := ⟨List.replicate 64 'b'⟩

/-- Valid 160-byte swap data: `amount0 = 1`, `amount1 = -1`, zero tail. -/
def goodSwapData : String :=
  "0x" ++ ⟨List.replicate 63 '0'⟩ ++ "1" ++ ⟨List.replicate 64 'f'⟩ ++
    ⟨List.replicate 192 '0'⟩

/-- A log whose topic 0 carries the plain `"0x"`-prefixed Swap signature. -/
def plainSwapLog : LogEntry :=
  { address := "0xPooL"
    topics := ["0x" ++ SWAP_EVENT_SIG, topicWordA, topicWordB]
    data := some goodSwapData }

/-- A log with an unrelated topic 0. -/
def otherTopicLog : LogEntry :=
  { address := "0xElse", topics := ["0xdeadbeef"], data := none }

set_option maxRecDepth 8192 in
/-- C3 witness: a two-log receipt, one qualifying and one not. -/
theorem parse_swap_logs_filters_witness :
    parse_swap_logs { status := some "0x1", fromAddr := none,
                      logs := [plainSwapLog, otherTopicLog] } =
      .ok ((([plainSwapLog, otherTopicLog] : List LogEntry).filter
            qualifiesSwapLog).map convertSwapLog) :=
  parse_swap_logs_filters_and_preserves_order
    { status := some "0x1", fromAddr := none, logs := [plainSwapLog, otherTopicLog] }
    (by decide)

/-- Modelled from the spec's words, as the refinement comparison for C3: the
first topic, "compared case-insensitively and with or without a `0x`
prefix", equals the Swap signature hash. -/
def specTopicMatches (t : String) : Bool :=
  pyLower t == SWAP_EVENT_SIG || pyLower t == "0x" ++ SWAP_EVENT_SIG

/-- Modelled from the spec's words: a log the claim says qualifies. -/
def specQualifiesSwapLog (l : LogEntry) : Bool :=
  match l.topics with
  | [] => false
  | t0 :: _ => specTopicMatches t0 && decide (l.topics.length ≥ 3)

/-- A log whose topic 0 is `"0x0x"` followed by the Swap signature: the
claimed prefix-insensitive comparison rejects it, but the code's
`replace("0x", "")` removes both occurrences and accepts it. -/
def doublePrefixLog : LogEntry :=
  { address := "0xPooL"
    topics := ["0x0x" ++ SWAP_EVENT_SIG, topicWordA, topicWordB]
    data := some goodSwapData }

set_option maxRecDepth 8192 in
/-- C3 counterexample: a receipt whose only log does *not* qualify under the
claim's topic comparison, yet `parse_swap_logs` converts it — so the
parser's output is not "exactly those log entries whose first topic, with or
without a `0x` prefix, equals the signature hash". -/
theorem parse_swap_logs_spec_match_counterexample :
    specQualifiesSwapLog doublePrefixLog = false ∧
    parse_swap_logs { status := some "0x1", fromAddr := none, logs := [doublePrefixLog] } =
      .ok [logSwapEvent doublePrefixLog 1 (-1)] := by
  exact ⟨by decide, rfl⟩

theorem parseSwapLogsList_error_at (pre post : List LogEntry) (l : LogEntry) (e : String)
    (hpre : ∀ l' ∈ pre, qualifiesSwapLog l' = true → (decodeSwapData l').isOk = true)
    (hq : qualifiesSwapLog l = true)
    (herr : decodeSwapData l = .error e) :
    parseSwapLogsList (pre ++ l :: post) = .error e := by
  induction pre with
  | nil =>
    simp only [List.nil_append]
    unfold parseSwapLogsList
    rw [if_pos hq, herr]
  | cons p ps ih =>
    have hps : ∀ l' ∈ ps, qualifiesSwapLog l' = true → (decodeSwapData l').isOk = true :=
      fun l' hm => hpre l' (List.mem_cons_of_mem _ hm)
    have htail := ih hps
    simp only [List.cons_append]
    unfold parseSwapLogsList
    by_cases hqp : qualifiesSwapLog p = true
    · rw [if_pos hqp]
      have hdec := hpre p (List.mem_cons_self _ _) hqp
      rcases hd : decodeSwapData p with e' | ⟨a0, a1⟩
      · rw [hd] at hdec
        exact Bool.noConfusion hdec
      · rw [htail]
    · simp only [Bool.not_eq_true] at hqp
      rw [hqp]
      simpa using htail

/-- **C10.** The parser is not total on qualifying logs: if a log passes the
topic and topic-count tests but its `"data"` field is absent, is not valid
hexadecimal, or is shorter than the five-field ABI layout, `parse_swap_logs`
raises (models the uncaught `KeyError`/`ValueError`/`InsufficientDataBytes`)
instead of skipping the log — provided the qualifying logs before it decode,
so the failure is attributable to this log.  Silent skipping applies only to
non-qualifying logs. -/
theorem parse_swap_logs_raises_on_bad_data (receipt : Receipt)
    (pre post : List LogEntry) (l : LogEntry)
    (hsplit : receipt.logs = pre ++ l :: post)
    (hpre : ∀ l' ∈ pre, qualifiesSwapLog l' = true → (decodeSwapData l').isOk = true)
    (hq : qualifiesSwapLog l = true)
    (hbad : l.data = none ∨
        (∃ s, l.data = some s ∧ hexPairBytes? (s.data.drop 2) = none) ∨
        (∃ s bs, l.data = some s ∧ hexPairBytes? (s.data.drop 2) = some bs ∧
          bs.length < 160)) :
    ∃ e, decodeSwapData l = .error e ∧ parse_swap_logs receipt = .error e := by
  have herr : ∃ e, decodeSwapData l = .error e := by
    rcases hbad with h | ⟨s, hs, hhex⟩ | ⟨s, bs, hs, hhex, hlen⟩
    · exact ⟨"KeyError: data", by simp [decodeSwapData, h]⟩
    · exact ⟨"ValueError: non-hexadecimal number found in fromhex() arg",
        by simp [decodeSwapData, hs, hhex]⟩
    · exact ⟨"InsufficientDataBytes", by simp [decodeSwapData, hs, hhex, hlen]⟩
  obtain ⟨e, he⟩ := herr
  refine ⟨e, he, ?_⟩
  unfold parse_swap_logs
  rw [hsplit]
  exact parseSwapLogsList_error_at pre post l e hpre hq he

/-- A qualifying log with no `"data"` key. -/
def missingDataLog : LogEntry :=
  { address := "0xPooL"
    topics := ["0x" ++ SWAP_EVENT_SIG, topicWordA, topicWordB]
    data := none }

/-- C10 witness: the missing-`data` qualifying log makes the parse raise. -/
theorem parse_swap_logs_raises_on_bad_data_witness :
    parse_swap_logs { status := some "0x1", fromAddr := none, logs := [missingDataLog] } =
      .error "KeyError: data" := by
  obtain ⟨e, hd, hp⟩ := parse_swap_logs_raises_on_bad_data
    { status := some "0x1", fromAddr := none, logs := [missingDataLog] }
    [] [] missingDataLog rfl (by simp) (by decide) (Or.inl rfl)
  have hcomp : decodeSwapData missingDataLog = .error "KeyError: data" := rfl
  rw [hcomp] at hd
  injection hd with h
  rw [h]
  exact hp

/-! ## Failover JSON-RPC client -/

/-- A JSON value, as far as the client inspects response bodies. -/
inductive JVal where
  | null
  | bool (b : Bool)
  | num (n : Int)
  | str (s : String)
  | arr (xs : List JVal)
  | obj (fields : List (String × JVal))

mutual
/-- Python `repr` of a JSON-shaped value (string escaping elided; the
values reaching it are RPC error payloads without quotes). -/
def pyRepr : JVal → String
  | .null => "None"
  | .bool true => "True"
  | .bool false => "False"
  | .num n => toString n
  | .str s => "'" ++ s ++ "'"
  | .arr xs => "[" ++ pyReprList xs ++ "]"
  | .obj fs => "\x7b" ++ pyReprFields fs ++ "\x7d"

def pyReprList : List JVal → String
  | [] => ""
  | [x] => pyRepr x
  | x :: xs => pyRepr x ++ ", " ++ pyReprList xs

def pyReprFields : List (String × JVal) → String
  | [] => ""
  | [(k, v)] => "'" ++ k ++ "': " ++ pyRepr v
  | (k, v) :: fs => "'" ++ k ++ "': " ++ pyRepr v ++ ", " ++ pyReprFields fs
end

/-- Python `str` of a JSON-shaped value (what an f-string interpolates). -/
def pyStr : JVal → String
  | .str s => s
  | v => pyRepr v

/-- What one endpoint does for one request, as observed inside the `try`
body of `JsonRpcClient.call` (source lines 40–53): `netError` models
`requests.post` itself raising; `httpError` models `raise_for_status` on a
non-2xx response (requests resolves redirects, so the terminal status is
2xx or raising); `jsonBody` is a parsed JSON object body. -/
inductive EndpointReply where
  | netError (msg : String)
  | httpError (msg : String)
  | jsonBody (body : List (String × JVal))

/-- The outcome the `try` body produces for one endpoint: the result value,
or the exception message captured into `last_error`.  A body with an
`"error"` key raises `RpcError(body["error"])`; one without a `"result"`
key raises `KeyError('result')`, whose `str` is `"'result'"`. -/
def replyOutcome : EndpointReply → Except String JVal
  | .netError m => .error m
  | .httpError m => .error m
  | .jsonBody body =>
    match body.lookup "error" with
    | some v => .error (pyStr v)
    | none =>
      match body.lookup "result" with
      | some v => .ok v
      | none => .error "'result'"

/-- The aggregated failure raised after the loop (source line 57); a `none`
`last_error` prints as Python `None`. -/
def allFailedError (method : String) (lastError : Option String) : String :=
  "all RPC endpoints failed for " ++ method ++ ": " ++
    (match lastError with | some m => m | none => "None")

/-- The endpoint loop of `JsonRpcClient.call` (source lines 37–57), one
entry of `replies` per configured URL, in order.  Returns the call's result
together with the number of endpoints contacted. -/
def callLoop (method : String) : List EndpointReply → Option String →
    Except String JVal × Nat
  | [], lastError => (.error (allFailedError method lastError), 0)
  | reply :: rest, _ =>
    match replyOutcome reply with
    | .ok v => (.ok v, 1)
    | .error m =>
      let (res, n) := callLoop method rest (some m)
      (res, n + 1)

/-- `JsonRpcClient.call(method, params)` with `replies` describing what each
configured endpoint returns for this call. -/
def JsonRpcClient_call (method : String) (replies : List EndpointReply) :
    Except String JVal × Nat :=
  callLoop method replies none

theorem callLoop_first_success (method : String) (pre post : List EndpointReply)
    (rep : EndpointReply) (v : JVal) (lastError : Option String)
    (hfail : ∀ r ∈ pre, (replyOutcome r).isOk = false)
    (hok : replyOutcome rep = .ok v) :
    callLoop method (pre ++ rep :: post) lastError = (.ok v, pre.length + 1) := by
  induction pre generalizing lastError with
  | nil =>
    simp only [List.nil_append]
    unfold callLoop
    rw [hok]
    rfl
  | cons r rs ih =>
    have hr := hfail r (List.mem_cons_self _ _)
    have hrs : ∀ x ∈ rs, (replyOutcome x).isOk = false :=
      fun x hx => hfail x (List.mem_cons_of_mem _ hx)
    rcases ho : replyOutcome r with m | w
    · simp only [List.cons_append]
      unfold callLoop
      rw [ho]
      have hrec := ih (some m) hrs
      simp [hrec, List.length_cons]
    · rw [ho] at hr
      exact Bool.noConfusion hr

theorem callLoop_all_fail (method : String) (init : List EndpointReply)
    (lastR : EndpointReply) (m : String) (lastError : Option String)
    (hfail : ∀ r ∈ init, (replyOutcome r).isOk = false)
    (hlast : replyOutcome lastR = .error m) :
    callLoop method (init ++ [lastR]) lastError =
      (.error (allFailedError method (some m)), init.length + 1) := by
  induction init generalizing lastError with
  | nil =>
    simp only [List.nil_append]
    unfold callLoop
    rw [hlast]
    rfl
  | cons r rs ih =>
    have hr := hfail r (List.mem_cons_self _ _)
    have hrs : ∀ x ∈ rs, (replyOutcome x).isOk = false :=
      fun x hx => hfail x (List.mem_cons_of_mem _ hx)
    rcases ho : replyOutcome r with m' | w
    · simp only [List.cons_append]
      unfold callLoop
      rw [ho]
      have hrec := ih (some m') hrs
      simp [hrec, List.length_cons]
    · rw [ho] at hr
      exact Bool.noConfusion hr

/-- **C5.** For one `JsonRpcClient.call`: the configured endpoints are tried
in order, each consumed at most once; every failing endpoint (network
error, non-2xx status, or an `"error"` envelope) is recorded into
`last_error` and skipped; the first endpoint whose body is a success
envelope ends the loop — the value returned is its `"result"` and exactly
`pre.length + 1` endpoints were contacted; and when every endpoint fails
the call raises the aggregate error, whose message contains the last
failure. -/
theorem JsonRpcClient_call_failover (method : String) :
    (∀ (pre post : List EndpointReply) (rep : EndpointReply) (v : JVal),
       (∀ r ∈ pre, (replyOutcome r).isOk = false) →
       replyOutcome rep = .ok v →
       JsonRpcClient_call method (pre ++ rep :: post) = (.ok v, pre.length + 1)) ∧
    (∀ (init : List EndpointReply) (lastR : EndpointReply) (m : String),
       (∀ r ∈ init, (replyOutcome r).isOk = false) →
       replyOutcome lastR = .error m →
       JsonRpcClient_call method (init ++ [lastR]) =
         (.error (allFailedError method (some m)), init.length + 1) ∧
       List.IsInfix m.data (allFailedError method (some m)).data) := by
  constructor
  · intro pre post rep v hfail hok
    exact callLoop_first_success method pre post rep v none hfail hok
  · intro init lastR m hfail hlast
    refine ⟨callLoop_all_fail method init lastR m none hfail hlast, ?_⟩
    refine ⟨("all RPC endpoints failed for " ++ method ++ ": ").data, [], ?_⟩
    simp [allFailedError, String.data_append, List.append_assoc]

/-- C5 witness: a network-failing endpoint followed by a succeeding one —
the call returns the second endpoint's result after two attempts. -/
theorem JsonRpcClient_call_failover_witness :
    JsonRpcClient_call "eth_chainId" 
      ([EndpointReply.netError "connection refused"] ++
        EndpointReply.jsonBody [("result", JVal.str "0x1")] :: []) =
      (.ok (JVal.str "0x1"), 2) :=
  (JsonRpcClient_call_failover "eth_chainId").1
    [EndpointReply.netError "connection refused"]
    [] (EndpointReply.jsonBody [("result", JVal.str "0x1")]) (JVal.str "0x1")
    (by intro r hr; rw [List.mem_singleton] at hr; subst hr; rfl) rfl

/-! ## Amount formatting (`decimal.Decimal`, `getcontext().prec = 78`) -/

/-- Digit count of a natural number, fuelled (1 digit for 0). -/
def numDigitsAux : Nat → Nat → Nat
  | 0, _ => 1
  | fuel + 1, n => if n < 10 then 1 else numDigitsAux fuel (n / 10) + 1

/-- Number of decimal digits of `n`. -/
def numDigits (n : Nat) : Nat := numDigitsAux n n

/-- The exact-quotient clean-up of `_pydecimal` division: while the
exponent is below the ideal exponent and the coefficient ends in zero,
shift one zero out. -/
def stripZerosAux : Nat → Nat → Int → Int → Nat × Int
  | 0, c, e, _ => (c, e)
  | fuel + 1, c, e, ideal =>
    if e < ideal ∧ c % 10 = 0 then stripZerosAux fuel (c / 10) (e + 1) ideal
    else (c, e)

/-- `Decimal.__truediv__` at precision 78 for a dividend `(av, 0)` and a
divisor `(c2, e2)` with positive coefficients (the only shapes
`format_amount` produces): compute the quotient with one guard digit, mark
an inexact remainder on the last digit (the `% 5` nudge making half-way
rounding impossible for inexact results), strip zeros of an exact quotient
toward the ideal exponent, then round to 78 significant digits half-even
(`_fix`).  Returns the result's coefficient and exponent. -/
def decimalDivide (av c2 : Nat) (e2 : Int) : Nat × Int :=
  let prec : Nat := 78
  let ideal : Int := 0 - e2
  if av = 0 then (0, ideal)
  else
    let shift : Int := (numDigits c2 : Int) - (numDigits av : Int) + ((prec : Int) + 1)
    let exp0 : Int := ideal - shift
    let qr :=
      if 0 ≤ shift then
        (av * 10 ^ Int.toNat shift / c2, av * 10 ^ Int.toNat shift % c2)
      else
        (av / (c2 * 10 ^ Int.toNat (-shift)), av % (c2 * 10 ^ Int.toNat (-shift)))
    let ce :=
      if qr.2 ≠ 0 then
        (if qr.1 % 5 = 0 then qr.1 + 1 else qr.1, exp0)
      else
        stripZerosAux 400 qr.1 exp0 ideal
    let nd := numDigits ce.1
    if nd ≤ prec then ce
    else
      let m : Nat := nd - prec
      let q : Nat := ce.1 / 10 ^ m
      let r : Nat := ce.1 % 10 ^ m
      let q' : Nat := if 2 * r > 10 ^ m ∨ (2 * r = 10 ^ m ∧ q % 2 = 1) then q + 1 else q
      if numDigits q' > prec then (q' / 10, ce.2 + (m : Int) + 1) else (q', ce.2 + (m : Int))

/-- `Decimal.__str__` (the to-scientific-string of the decimal spec) for a
value with sign `neg`, coefficient `coeff` and exponent `exp`. -/
def decimalToString (neg : Bool) (coeff : Nat) (exp : Int) : String :=
  let ds := (Nat.repr coeff).data
  let adjusted : Int := exp + ds.length - 1
  let body :=
    if exp ≤ 0 ∧ adjusted ≥ -6 then
      if exp = 0 then ds
      else
        let leftd : Int := exp + ds.length
        if leftd > 0 then ds.take leftd.toNat ++ '.' :: ds.drop leftd.toNat
        else '0' :: '.' :: (List.replicate (-leftd).toNat '0' ++ ds)
    else
      match ds with
      | [] => []
      | d :: rest =>
        d :: ((if rest.isEmpty then [] else '.' :: rest) ++
          ('E' :: (if adjusted ≥ 0 then '+' :: (toString adjusted).data
                   else (toString adjusted).data)))
  ⟨if neg then '-' :: body else body⟩

/-- `format_amount` (source lines 96–100): `str(value)` when `decimals` is
zero, otherwise `str(Decimal(value) / (Decimal(10) ** Decimal(decimals)))`
at 78 digits of working precision.  `Decimal(10) ** Decimal(d)` is the
power of ten rounded to precision: coefficient `10 ^ min d 77`, exponent
`d - min d 77`. -/
def format_amount (value : Int) (decimals : Nat) : String :=
  if decimals = 0 then toString value
  else
    let k := if decimals ≤ 77 then decimals else 77
    let ce := decimalDivide value.natAbs (10 ^ k) ((decimals : Int) - (k : Int))
    decimalToString (value < 0) ce.1 ce.2

theorem digitChar_ne_dot (n : Nat) : Nat.digitChar n ≠ '.' := by
  by_cases h : n < 16
  · interval_cases n <;> decide
  · unfold Nat.digitChar
    repeat rw [if_neg (by omega)]
    decide

theorem toDigitsCore_no_dot (base : Nat) :
    ∀ (fuel n : Nat) (acc : List Char), ('.' ∉ acc) →
      '.' ∉ Nat.toDigitsCore base fuel n acc := by
  intro fuel
  induction fuel with
  | zero =>
    intro n acc hacc
    unfold Nat.toDigitsCore
    exact hacc
  | succ fuel ih =>
    intro n acc hacc
    unfold Nat.toDigitsCore
    have hcons : '.' ∉ (n % base).digitChar :: acc := by
      intro hmem
      rcases List.mem_cons.mp hmem with h | h
      · exact digitChar_ne_dot _ h.symm
      · exact hacc h
    by_cases hz : n / base = 0
    · simp only [hz, if_pos rfl]
      exact hcons
    · rw [if_neg hz]
      exact ih (n / base) _ hcons

theorem natRepr_no_dot (n : Nat) : '.' ∉ (Nat.repr n).data := by
  unfold Nat.repr Nat.toDigits
  show '.' ∉ Nat.toDigitsCore 10 (n + 1) n []
  exact toDigitsCore_no_dot 10 (n + 1) n [] (by simp)

theorem int_toString_no_dot (x : Int) : '.' ∉ (toString x).data := by
  cases x with
  | ofNat n =>
    show '.' ∉ (Nat.repr n).data
    exact natRepr_no_dot n
  | negSucc n =>
    show '.' ∉ ("-" ++ Nat.repr (n + 1)).data
    rw [String.data_append]
    intro hmem
    rcases List.mem_append.mp hmem with h | h
    · simp at h
    · exact natRepr_no_dot (n + 1) h

/-- C4 counterexample: at 78 digits of working precision the claimed
identity `format_amount(0, d) = "0"` fails at `d = 78`: the scale
`Decimal(10) ** Decimal(78)` is the rounded `1E+78` with exponent 1, so the
zero quotient keeps exponent `-1` and prints as `"0.0"`. -/
theorem format_amount_zero_high_decimals_counterexample :
    format_amount 0 78 = "0.0" ∧ "0.0" ≠ "0" :=
  ⟨by decide, by decide⟩

/-- **C4 (amended).** `format_amount(x, 0)` is the exact integer string of
`x`, decimal-point-free, for every integer `x`; and `format_amount(0, d)`
is `"0"` for every `d ≤ 77` (for `d ≥ 78` the 78-digit working precision
makes the scale's exponent positive and the rendering gains fractional
zeros, as the counterexample shows). -/
theorem format_amount_integer_and_zero_cases :
    (∀ x : Int, format_amount x 0 = toString x ∧ '.' ∉ (format_amount x 0).data) ∧
      (∀ d : Nat, d ≤ 77 → format_amount 0 d = "0") := by
  constructor
  · intro x
    constructor
    · simp [format_amount]
    · simp only [format_amount, if_pos rfl]
      exact int_toString_no_dot x
  · decide

/-- C4 witness: the amended theorem applied at `x = -12`, `d = 18`. -/
theorem format_amount_integer_and_zero_cases_witness :
    format_amount (-12) 0 = "-12" ∧ format_amount 0 18 = "0" :=
  ⟨(format_amount_integer_and_zero_cases.1 (-12)).1,
   format_amount_integer_and_zero_cases.2 18 (by decide)⟩

/-! ## Orchestrator: `decode_uniswap_v3_swap` -/

/-- Python truthiness of `tx.get("from")`-style values: `None` and the empty
string are falsy. -/
def pyTruthy : Option String → Bool
  | none => false
  | some s => decide (s ≠ "")

/-- Python `a or b` over such values. -/
def pyOrStr (a b : Option String) : Option String :=
  if pyTruthy a then a else b

/-- `tx.get("from")` after the `if not tx: tx = {}` guard (source lines
159–161): a null/falsy transaction behaves as an empty dict. -/
def txFrom : Option Tx → Option String
  | none => none
  | some t => t.fromAddr

/-- The result dictionary (source lines 187–194). -/
structure SwapResult where
  sender : String
  recipient : String
  tokenIn : String
  tokenOut : String
  amountIn : String
  amountOut : String
  deriving DecidableEq

/-- The resolution stage (source lines 170–179): resolve the first and the
last swap, then the two tokens' decimals, against the shared caches.  The
executor's four futures are awaited in exactly this order and each lookup
is a memoized read of immutable chain data, so thread scheduling cannot
change any returned value; the request trace is given in this sequential
order. -/
def resolveStage (w : World) (firstSwap lastSwap : SwapEvent) :
    Except String (String × String × Int × Int × Nat × Nat) × List RpcReq :=
  match resolve_swap_tokens w { poolTokens := [], decimalsCache := [] } firstSwap with
  | (.error e, _, tr1) => (.error e, tr1)
  | (.ok (tokenIn, _, amountIn, _), c1, tr1) =>
    match resolve_swap_tokens w c1 lastSwap with
    | (.error e, _, tr2) => (.error e, tr1 ++ tr2)
    | (.ok (_, tokenOut, _, amountOut), c2, tr2) =>
      match get_decimals w c2 tokenIn with
      | (.error e, _, tr3) => (.error e, tr1 ++ tr2 ++ tr3)
      | (.ok decIn, c3, tr3) =>
        match get_decimals w c3 tokenOut with
        | (.error e, _, tr4) => (.error e, tr1 ++ tr2 ++ tr3 ++ tr4)
        | (.ok decOut, _, tr4) =>
          (.ok (tokenIn, tokenOut, amountIn, amountOut, decIn, decOut),
           tr1 ++ tr2 ++ tr3 ++ tr4)

/-- `decode_uniswap_v3_swap(tx_hash, rpc_urls)` (source lines 152–194),
returning the result (or the raised error) together with the ordered trace
of JSON-RPC requests issued. -/
def decode_uniswap_v3_swap (w : World) (txHash : String) (rpcUrls : List String) :
    Except String SwapResult × List RpcReq :=
  if (rpcUrls.filter (fun u => u ≠ "")).isEmpty then (.error "RPC_URL is empty", [])
  else
    match w.getTransactionReceipt txHash with
    | .error e => (.error e, [.getTransactionReceipt txHash])
    | .ok none => (.error ("receipt not found: " ++ txHash), [.getTransactionReceipt txHash])
    | .ok (some receipt) =>
      if receipt.status ≠ some "0x1" then
        (.error ("transaction failed: " ++ txHash), [.getTransactionReceipt txHash])
      else
        match w.getTransactionByHash txHash with
        | .error e =>
            (.error e, [.getTransactionReceipt txHash, .getTransactionByHash txHash])
        | .ok txOpt =>
          match parse_swap_logs receipt with
          | .error e =>
              (.error e, [.getTransactionReceipt txHash, .getTransactionByHash txHash])
          | .ok [] =>
              (.error ("no Uniswap V3 Swap event found in tx " ++ txHash),
               [.getTransactionReceipt txHash, .getTransactionByHash txHash])
          | .ok (firstSwap :: restSwaps) =>
            let lastSwap := restSwaps.getLastD firstSwap
            match resolveStage w firstSwap lastSwap with
            | (.error e, tr) =>
                (.error e,
                 [.getTransactionReceipt txHash, .getTransactionByHash txHash] ++ tr)
            | (.ok (tokenIn, tokenOut, amountIn, amountOut, decIn, decOut), tr) =>
              let senderRaw := pyOrStr (txFrom txOpt) receipt.fromAddr
              if pyTruthy senderRaw then
                (.ok { sender := normalize_address (senderRaw.getD "")
                       recipient := lastSwap.recipient
                       tokenIn := tokenIn
                       tokenOut := tokenOut
                       amountIn := format_amount amountIn decIn
                       amountOut := format_amount amountOut decOut },
                 [.getTransactionReceipt txHash, .getTransactionByHash txHash] ++ tr)
              else
                (.error "sender not found in RPC response; try a different mainnet RPC URL",
                 [.getTransactionReceipt txHash, .getTransactionByHash txHash] ++ tr)

/-- **C6.** When the fetched receipt's status is not `"0x1"`, the decode
fails with the transaction-failed error, and the request trace is exactly
the one receipt fetch: no `eth_getTransactionByHash` and no `eth_call` is
issued. -/
theorem decode_stops_after_failed_status (w : World) (txHash : String)
    (rpcUrls : List String) (r : Receipt)
    (hurls : (rpcUrls.filter (fun u => u ≠ "")).isEmpty = false)
    (hrec : w.getTransactionReceipt txHash = .ok (some r))
    (hst : r.status ≠ some "0x1") :
    decode_uniswap_v3_swap w txHash rpcUrls =
      (.error ("transaction failed: " ++ txHash), [RpcReq.getTransactionReceipt txHash]) := by
  unfold decode_uniswap_v3_swap
  rw [if_neg (fun hc => Bool.noConfusion (hurls ▸ hc)), hrec]
  simp only []
  rw [if_pos hst]

/-- A world whose receipt has a reverted status. -/
def revertedWorld : World :=
  { getTransactionReceipt := fun _ =>
      .ok (some { status := some "0x0", fromAddr := none, logs := [] })
    getTransactionByHash := fun _ => .error "never called"
    ethCallResult := fun _ _ => .error "never called" }

/-- C6 witness: the reverted-receipt world, one URL. -/
theorem decode_stops_after_failed_status_witness :
    decode_uniswap_v3_swap revertedWorld "0xhash" ["https://rpc.example"] =
      (.error ("transaction failed: " ++ "0xhash"),
       [RpcReq.getTransactionReceipt "0xhash"]) :=
  decode_stops_after_failed_status revertedWorld "0xhash" ["https://rpc.example"]
    { status := some "0x0", fromAddr := none, logs := [] }
    (by decide) rfl (by decide)

/-- 32-byte `token0()` return word: 24 zero characters, then the token's 40
hex characters. -/
def token0Word : String := ⟨List.replicate 24 '0' ++ List.replicate 40 'a'⟩

/-- 32-byte `token1()` return word. -/
def token1Word : String := ⟨List.replicate 24 '0' ++ List.replicate 40 'b'⟩

/-- A successful receipt carrying one plain swap log and a `"from"`. -/
def c7Receipt : Receipt :=
  { status := some "0x1", fromAddr := some "0xReceiptFrom", logs := [plainSwapLog] }

/-- eth_call oracle serving `token0()`, `token1()` and `decimals() = 0`. -/
def c7EthCalls (data : String) : Except String String :=
  if data = TOKEN0_SELECTOR then .ok token0Word
  else if data = TOKEN1_SELECTOR then .ok token1Word
  else if data = DECIMALS_SELECTOR then .ok "0x0"
  else .error "unexpected call"

/-- A world whose transaction carries a present-but-empty `"from"`. -/
def c7EmptyFromWorld : World :=
  { getTransactionReceipt := fun _ => .ok (some c7Receipt)
    getTransactionByHash := fun _ => .ok (some { fromAddr := some "" })
    ethCallResult := fun _ data => c7EthCalls data }

set_option maxRecDepth 8192 in
/-- C7 counterexample: the transaction *does* provide a `"from"` value (the
empty string), yet the successfully assembled result's sender is the
receipt's normalized `"from"`, not the transaction's — Python's `or` tests
truthiness, not presence. -/
theorem decode_sender_truthiness_counterexample :
    c7EmptyFromWorld.getTransactionByHash "0xhash" = .ok (some { fromAddr := some "" }) ∧
    (decode_uniswap_v3_swap c7EmptyFromWorld "0xhash" ["u"]).1.map (fun r => r.sender) =
      .ok "0xreceiptfrom" ∧
    normalize_address "" ≠ "0xreceiptfrom" :=
  ⟨rfl, rfl, by decide⟩

/-- **C7 (amended).** In every successfully assembled result, the sender is
the normalized transaction `"from"` when that is present *and nonempty*
(truthy), otherwise the normalized receipt `"from"`; in particular a
successful decode requires a truthy `"from"` in one of the two — when
neither has one, the decode fails rather than producing a result. -/
theorem decode_sender_fallback (w : World) (txHash : String) (rpcUrls : List String)
    (receipt : Receipt) (txOpt : Option Tx) (res : SwapResult) (reqs : List RpcReq)
    (hurls : (rpcUrls.filter (fun u => u ≠ "")).isEmpty = false)
    (hrec : w.getTransactionReceipt txHash = .ok (some receipt))
    (hst : ¬receipt.status ≠ some "0x1")
    (htx : w.getTransactionByHash txHash = .ok txOpt)
    (hdec : decode_uniswap_v3_swap w txHash rpcUrls = (.ok res, reqs)) :
    pyTruthy (pyOrStr (txFrom txOpt) receipt.fromAddr) = true ∧
    res.sender = normalize_address ((pyOrStr (txFrom txOpt) receipt.fromAddr).getD "") := by
  unfold decode_uniswap_v3_swap at hdec
  rw [if_neg (fun hc => Bool.noConfusion (hurls ▸ hc))] at hdec
  repeat' split at hdec
  all_goals simp_all
  repeat' split at hdec
  all_goals simp_all
  all_goals rw [← hdec.1]

/-- A world whose transaction carries a nonempty `"from"`. -/
def c7TxFromWorld : World :=
  { getTransactionReceipt := fun _ => .ok (some c7Receipt)
    getTransactionByHash := fun _ => .ok (some { fromAddr := some "0xTxFrom" })
    ethCallResult := fun _ data => c7EthCalls data }

/-- The pool's token0 address as resolved from `token0Word`. -/
def tokenAAddr : String := "0x" ++ ⟨List.replicate 40 'a'⟩

/-- The pool's token1 address as resolved from `token1Word`. -/
def tokenBAddr : String := "0x" ++ ⟨List.replicate 40 'b'⟩

/-- The result `c7TxFromWorld` decodes to. -/
def c7OkResult : SwapResult :=
  { sender := "0xtxfrom"
    recipient := "0x" ++ ⟨List.replicate 40 'b'⟩
    tokenIn := tokenAAddr
    tokenOut := tokenBAddr
    amountIn := "1"
    amountOut := "1" }

/-- The trace `c7TxFromWorld` decodes with: receipt, transaction, the two
token lookups of the (cache-miss) pool, and two decimals lookups. -/
def c7OkTrace : List RpcReq :=
  [.getTransactionReceipt "0xhash", .getTransactionByHash "0xhash",
   .ethCall "0xpool" TOKEN0_SELECTOR, .ethCall "0xpool" TOKEN1_SELECTOR,
   .ethCall tokenAAddr DECIMALS_SELECTOR, .ethCall tokenBAddr DECIMALS_SELECTOR]

set_option maxRecDepth 8192 in
/-- C7 witness: with a truthy transaction `"from"`, the assembled result's
sender is its normalization. -/
theorem decode_sender_fallback_witness :
    pyTruthy (pyOrStr (txFrom (some { fromAddr := some "0xTxFrom" }))
        c7Receipt.fromAddr) = true ∧
    c7OkResult.sender =
      normalize_address ((pyOrStr (txFrom (some { fromAddr := some "0xTxFrom" }))
        c7Receipt.fromAddr).getD "") :=
  decode_sender_fallback c7TxFromWorld "0xhash" ["u"] c7Receipt
    (some { fromAddr := some "0xTxFrom" }) c7OkResult c7OkTrace
    (by decide) rfl (by decide) rfl rfl
